import Mathlib

/-!
Shallow embedding of `sqlite3_to_mysql/transporter.py` (class `SQLite3toMySQL`):
the SQLite→MySQL type translator, the CREATE TABLE DDL builder and the
chunked data-transfer pipeline, together with proofs of the specified
properties.  Python exceptions are modelled by `Option` (`none` = raise).
-/

/-- Python `str.upper()` (ASCII, as used by the source on type names). -/
def pyUpper (s : String) : String := ⟨s.data.map Char.toUpper⟩

/-- Python `str.strip()`: remove leading and trailing whitespace. -/
def pyStrip (s : String) : String :=
  ⟨((s.data.dropWhile Char.isWhitespace).reverse.dropWhile Char.isWhitespace).reverse⟩

/-- The characters removed by Python `str.rstrip(", ")`. -/
def isCommaOrSpace (c : Char) : Bool := c == ',' || c == ' '

/-- Python `str.rstrip(", ")` on a character list. -/
def rstripCommaSpace (l : List Char) : List Char :=
  (l.reverse.dropWhile isCommaOrSpace).reverse

/-- Python `str.rstrip(", ")` (line 182 of the source). -/
def pyRstripCommaSpace (s : String) : String := ⟨rstripCommaSpace s.data⟩

/-- Worker for Python `str.split()` (split on whitespace runs, dropping empty
tokens); `acc` holds the reversed current token. -/
def pySplitAux : List Char → List Char → List (List Char)
  | [], acc => if acc.isEmpty then [] else [acc.reverse]
  | c :: cs, acc =>
    if c.isWhitespace then
      if acc.isEmpty then pySplitAux cs [] else acc.reverse :: pySplitAux cs []
    else
      pySplitAux cs (c :: acc)

/-- Python `str.split()` with no separator argument. -/
def pySplit (l : List Char) : List (List Char) := pySplitAux l []

/-- Python `" ".join(tokens)`. -/
def joinSpace : List (List Char) → List Char
  | [] => []
  | [t] => t
  | t :: u :: ts => t ++ ' ' :: joinSpace (u :: ts)

/-- Python `" ".join(s.split())` — the whitespace normalisation applied to
the finished DDL statement (line 186 of the source). -/
def normalizeWs (s : String) : String := ⟨joinSpace (pySplit s.data)⟩

/-- `math.ceil(n / c)` for natural `n` and positive `c`. -/
def pyCeilDiv (n c : Nat) : Nat := (n + c - 1) / c

/-- `COLUMN_PATTERN = re.compile(r"^[^(]+")` used with `.match`: the maximal
non-empty leading run of characters other than `(`, or `none` when the
string is empty or starts with `(`. -/
def COLUMN_PATTERN_match (s : String) : Option String :=
  let t := s.data.takeWhile (fun c => c != '(')
  if t.isEmpty then none else some ⟨t⟩

/-- `SQLite3toMySQL._valid_column_type`:
`COLUMN_PATTERN.match(column_type.strip())`. -/
def valid_column_type (column_type : String) : Option String :=
  COLUMN_PATTERN_match (pyStrip column_type)

/-- The body of `re.search(r"\(\d+\)$")` examined on the reversed character
list: a closing `)` first, then a non-empty digit run, then `(`; the matched
`(digits)` suffix is returned.  (`\d` is modelled as ASCII digits.) -/
def length_suffix_rev_match : List Char → Option String
  | [] => none
  | c :: rest =>
    if c = ')' then
      match rest.dropWhile Char.isDigit with
      | [] => none
      | c2 :: _ =>
        if c2 = '(' then
          if (rest.takeWhile Char.isDigit).isEmpty then none
          else some ⟨'(' :: ((rest.takeWhile Char.isDigit).reverse ++ [')'])⟩
        else none
    else none

/-- `re.search(r"\(\d+\)$", column_type)`: Python's `$` matches at the end
of the string or just before one newline at the very end, so one trailing
newline is discounted before looking for the `\(\d+\)` suffix. -/
def length_suffix_match (column_type : String) : Option String :=
  match column_type.data.reverse with
  | [] => length_suffix_rev_match []
  | c :: rest =>
    if c = '\n' then length_suffix_rev_match rest
    else length_suffix_rev_match (c :: rest)

/-- `SQLite3toMySQL._column_type_length(column_type, default)`; the Python
`default` argument is `None` or an integer and is used only when truthy. -/
def column_type_length (column_type : String) (dflt : Option Nat) : String :=
  match length_suffix_match column_type with
  | some suffix => suffix
  | none =>
    match dflt with
    | some d => if d = 0 then "" else "(" ++ toString d ++ ")"
    | none => ""

/-- `SQLite3toMySQL._translate_type_from_sqlite_to_mysql`; `none` models the
`raise ValueError("Invalid column_type!")`. -/
def translate_type_from_sqlite_to_mysql (column_type : String) : Option String :=
  let full_column_type := pyUpper column_type
  match valid_column_type column_type with
  | none => none
  | some m =>
    let data_type := pyUpper m
    if data_type = "TEXT" ∨ data_type = "CLOB" then
      some "TEXT"
    else if data_type = "CHARACTER" ∨ data_type = "NCHAR" ∨ data_type = "NATIVE CHARACTER" then
      some ("CHAR" ++ column_type_length column_type none)
    else if data_type = "VARYING CHARACTER" ∨ data_type = "NVARCHAR" ∨ data_type = "VARCHAR" then
      some ("VARCHAR" ++ column_type_length column_type (some 255))
    else if data_type = "DOUBLE PRECISION" then
      some "DOUBLE"
    else if data_type = "UNSIGNED BIG INT" then
      some ("BIGINT" ++ column_type_length column_type none ++ " UNSIGNED")
    else if data_type = "INT1" ∨ data_type = "INT2" then
      some "INT"
    else
      some full_column_type

/-- One row of `PRAGMA table_info(...)`: name, declared type, and the integer
`notnull` and `pk` flags (Python tests them for truthiness, i.e. `≠ 0`). -/
structure TableColumn where
  name : String
  type : String
  notnull : Nat
  pk : Nat
deriving DecidableEq

/-- The `auto_increment` field of the column format in `_create_table`
(lines 173–177): `"AUTO_INCREMENT" if column["pk"] and translated in
{"INT", "BIGINT"} else ""`. -/
def auto_increment_marker (pk : Nat) (mysql_type : String) : String :=
  if pk ≠ 0 ∧ (mysql_type = "INT" ∨ mysql_type = "BIGINT") then "AUTO_INCREMENT" else ""

/-- The `notnull` field of the column format in `_create_table` (line 172). -/
def notnull_marker (notnull : Nat) : String :=
  if notnull ≠ 0 then "NOT NULL" else "NULL"

/-- The fragment `" `{name}` {type} {notnull} {auto_increment}, "` appended
for one column in `_create_table` (line 169); `none` when translation of the
declared type raises. -/
def column_ddl (c : TableColumn) : Option String :=
  match translate_type_from_sqlite_to_mysql c.type with
  | none => none
  | some t =>
    some (" `" ++ c.name ++ "` " ++ t ++ " " ++ notnull_marker c.notnull ++ " "
      ++ auto_increment_marker c.pk t ++ ", ")

/-- The concatenation of all column fragments, in column order. -/
def columns_ddl : List TableColumn → Option String
  | [] => some ""
  | c :: cs =>
    match column_ddl c, columns_ddl cs with
    | some f, some r => some (f ++ r)
    | _, _ => none

/-- The `primary_key` variable of `_create_table`: starts `""`, and each
column with a truthy `pk` flag overwrites it with its name (lines 161,
179–180), so the last pk-flagged column wins. -/
def primary_key_name (columns : List TableColumn) : String :=
  columns.foldl (fun acc c => if c.pk ≠ 0 then c.name else acc) ""

/-- The `", PRIMARY KEY (`...`)"` clause appended when `primary_key` is a
non-empty string (lines 183–184), else nothing. -/
def primary_key_clause (columns : List TableColumn) : String :=
  if primary_key_name columns ≠ "" then
    ", PRIMARY KEY (`" ++ primary_key_name columns ++ "`)"
  else ""

/-- The complete `CREATE TABLE` statement built by `_create_table`
(lines 160–186), after `rstrip(", ")`, the optional primary-key clause, the
engine suffix and the final `" ".join(sql.split())`; `none` when some
column's declared type cannot be translated. -/
def create_table_sql (table_name : String) (columns : List TableColumn) : Option String :=
  match columns_ddl columns with
  | none => none
  | some body =>
    some (normalizeWs
      (pyRstripCommaSpace ("CREATE TABLE IF NOT EXISTS `" ++ table_name ++ "` ( " ++ body)
        ++ primary_key_clause columns
        ++ " ) ENGINE = InnoDB CHARACTER SET utf8"))

/-- The chunked loop of `_transfer_table_data` (lines 198–207): it runs a
fixed number of iterations, each fetching up to `chunk` rows, issuing one
multi-row insert and committing once; returns the insert batches and the
number of commits. -/
def chunked_transfer_loop (chunk : Nat) : Nat → List α → List (List α) × Nat
  | 0, _ => ([], 0)
  | n + 1, rows =>
    let rest := chunked_transfer_loop chunk n (rows.drop chunk)
    (rows.take chunk :: rest.1, rest.2 + 1)

/-- `SQLite3toMySQL._transfer_table_data`: chunked mode when a chunk size is
configured and positive (`ceil(total_records / chunk_size)` iterations),
otherwise one insert of every fetched row followed by one commit. -/
def transfer_table_data (chunk_size : Option Int) (rows : List α) (total_records : Nat) :
    List (List α) × Nat :=
  match chunk_size with
  | some c =>
    if 0 < c then chunked_transfer_loop c.toNat (pyCeilDiv total_records c.toNat) rows
    else ([rows], 1)
  | none => ([rows], 1)

/-- One source table as the pipeline sees it: its name, its
`PRAGMA table_info` column rows, and its data rows (opaque). -/
structure SQLiteTable (α : Type) where
  name : String
  columns : List TableColumn
  rows : List α

/-- The per-table body of `SQLite3toMySQL.transfer` (lines 220–244): build
and execute the DDL, count the rows, and only when the count is positive run
`_transfer_table_data`.  `none` models an exception escaping; in the result,
the second component is `none` when the data-transfer step was skipped. -/
def process_table (chunk_size : Option Int) (t : SQLiteTable α) :
    Option (String × Option (List (List α) × Nat)) :=
  match create_table_sql t.name t.columns with
  | none => none
  | some ddl =>
    if 0 < t.rows.length then
      some (ddl, some (transfer_table_data chunk_size t.rows t.rows.length))
    else
      some (ddl, none)

/-- `SQLite3toMySQL.transfer`: process the tables in enumeration order,
stopping at the first exception.  Returns the per-table results of the
tables fully processed and whether the run aborted. -/
def transfer_tables (chunk_size : Option Int) :
    List (SQLiteTable α) → List (String × Option (List (List α) × Nat)) × Bool
  | [] => ([], false)
  | t :: ts =>
    match process_table chunk_size t with
    | none => ([], true)
    | some r =>
      let rest := transfer_tables chunk_size ts
      (r :: rest.1, rest.2)

/-! ## Generic lemmas about the Python string primitives -/

theorem dropWhile_append_eq {α : Type} (p : α → Bool) (a b : List α) :
    (a ++ b).dropWhile p =
      if (a.dropWhile p).isEmpty then b.dropWhile p else a.dropWhile p ++ b := by
  induction a with
  | nil => simp
  | cons c cs ih =>
    by_cases hc : p c
    · simpa [List.dropWhile_cons, hc] using ih
    · simp [List.dropWhile_cons, hc]

theorem rstripCommaSpace_append (a b : List Char) (c : Char) (h : isCommaOrSpace c = false) :
    rstripCommaSpace ((a ++ [c]) ++ b) = (a ++ [c]) ++ rstripCommaSpace b := by
  unfold rstripCommaSpace
  rw [List.reverse_append, List.reverse_append, List.reverse_singleton, List.singleton_append,
    dropWhile_append_eq]
  cases hb : b.reverse.dropWhile isCommaOrSpace with
  | nil => simp [hb, List.dropWhile_cons, h]
  | cons x xs => simp [hb, List.dropWhile_cons, h]

theorem pySplitAux_append_space (u v : List Char) (acc : List Char) :
    pySplitAux (u ++ ' ' :: v) acc = pySplitAux u acc ++ pySplitAux v [] := by
  have hws : (' ' : Char).isWhitespace = true := by decide
  induction u generalizing acc with
  | nil =>
    show pySplitAux (' ' :: v) acc = pySplitAux [] acc ++ pySplitAux v []
    by_cases ha : acc.isEmpty
    · simp [pySplitAux, hws, ha]
    · simp [pySplitAux, hws, ha]
  | cons c cs ih =>
    show pySplitAux (c :: (cs ++ ' ' :: v)) acc = pySplitAux (c :: cs) acc ++ pySplitAux v []
    by_cases hc : c.isWhitespace
    · by_cases ha : acc.isEmpty
      · simp [pySplitAux, hc, ha, ih]
      · simp [pySplitAux, hc, ha, ih]
    · simp [pySplitAux, hc, ih]

theorem pySplit_append_space (u v : List Char) :
    pySplit (u ++ ' ' :: v) = pySplit u ++ pySplit v := by
  simpa [pySplit] using pySplitAux_append_space u v []

theorem pySplitAux_shift (x v acc : List Char) (h : ∀ c ∈ x, c.isWhitespace = false) :
    pySplitAux (x ++ v) acc = pySplitAux v (x.reverse ++ acc) := by
  induction x generalizing acc with
  | nil => simp
  | cons c cs ih =>
    have hc : c.isWhitespace = false := h c (by simp)
    have ih' := ih (c :: acc) (fun d hd => h d (List.mem_cons_of_mem c hd))
    simp [pySplitAux, hc, ih', List.append_assoc]

theorem pySplitAux_head (v acc : List Char) (h : acc ≠ []) :
    ∃ t rest, pySplitAux v acc = t :: rest ∧ acc.reverse <+: t := by
  have ha : acc.isEmpty = false := by
    cases acc with
    | nil => exact absurd rfl h
    | cons a as => rfl
  induction v generalizing acc with
  | nil => exact ⟨acc.reverse, [], by simp [pySplitAux, ha], List.prefix_rfl⟩
  | cons c cs ih =>
    by_cases hc : c.isWhitespace
    · exact ⟨acc.reverse, pySplitAux cs [], by simp [pySplitAux, hc, ha], List.prefix_rfl⟩
    · obtain ⟨t, rest, ht, hp⟩ := ih (c :: acc) (by simp) rfl
      refine ⟨t, rest, by simp [pySplitAux, hc, ht], ?_⟩
      have hstep : acc.reverse <+: (c :: acc).reverse := by
        rw [List.reverse_cons]; exact List.prefix_append _ _
      exact hstep.trans hp

theorem joinSpace_cons (a : List Char) (ts : List (List Char)) (h : ts ≠ []) :
    joinSpace (a :: ts) = a ++ ' ' :: joinSpace ts := by
  cases ts with
  | nil => exact absurd rfl h
  | cons u us => rfl

theorem infixJoin_of_mem {t : List Char} {ts : List (List Char)} (h : t ∈ ts) :
    t <:+: joinSpace ts := by
  induction ts with
  | nil => cases h
  | cons a ts ih =>
    rcases List.mem_cons.mp h with rfl | h
    · cases ts with
      | nil => exact List.infix_rfl
      | cons u us =>
        exact ⟨[], ' ' :: joinSpace (u :: us), by simp [joinSpace_cons]⟩
    · have hts : ts ≠ [] := by rintro rfl; cases h
      obtain ⟨s, t', hst⟩ := ih h
      exact ⟨a ++ ' ' :: s, t', by rw [joinSpace_cons a ts hts, ← hst]; simp⟩

theorem infixJoin_adjacent (L R : List (List Char)) (x y : List Char) :
    (x ++ ' ' :: y) <:+: joinSpace (L ++ x :: y :: R) := by
  induction L with
  | nil =>
    cases R with
    | nil => exact List.infix_rfl
    | cons r rs =>
      refine ⟨[], ' ' :: joinSpace (r :: rs), ?_⟩
      rw [List.nil_append, List.nil_append, joinSpace_cons x (y :: r :: rs) (by simp),
        joinSpace_cons y (r :: rs) (by simp)]
      simp
  | cons a L ih =>
    obtain ⟨s, t', hst⟩ := ih
    refine ⟨a ++ ' ' :: s, t', ?_⟩
    rw [List.cons_append, joinSpace_cons a (L ++ x :: y :: R) (by simp), ← hst]
    simp

theorem primaryKey_infixJoin (u w : List Char) :
    ("PRIMARY KEY").data <:+:
      joinSpace (pySplit (u ++ ' ' :: (("PRIMARY").data ++ ' ' :: (("KEY").data ++ ' ' :: w)))) := by
  rw [pySplit_append_space, pySplit_append_space, pySplit_append_space]
  have h1 : pySplit (("PRIMARY").data) = [("PRIMARY").data] := by decide
  have h2 : pySplit (("KEY").data) = [("KEY").data] := by decide
  have h3 : ("PRIMARY KEY").data = ("PRIMARY").data ++ ' ' :: ("KEY").data := by decide
  rw [h1, h2, h3]
  have hadj := infixJoin_adjacent (pySplit u) (pySplit w) (("PRIMARY").data) (("KEY").data)
  simpa using hadj

theorem token_head_infixJoin (u v x : List Char) (hx : x ≠ [])
    (hwx : ∀ c ∈ x, c.isWhitespace = false) :
    x <:+: joinSpace (pySplit (u ++ ' ' :: (x ++ v))) := by
  rw [pySplit_append_space]
  have hshift : pySplit (x ++ v) = pySplitAux v x.reverse := by
    simpa [pySplit] using pySplitAux_shift x v [] hwx
  obtain ⟨t, rest, ht, hp⟩ := pySplitAux_head v x.reverse (by simpa using hx)
  rw [hshift, ht]
  have hx' : x <+: t := by simpa using hp
  have hmem : t ∈ pySplit u ++ t :: rest := by simp
  exact (hx'.isInfix).trans (infixJoin_of_mem hmem)

/-! ## Lemmas about the translator and the DDL builder -/

theorem translate_of_valid_none (s : String) (h : valid_column_type s = none) :
    translate_type_from_sqlite_to_mysql s = none := by
  unfold translate_type_from_sqlite_to_mysql
  rw [h]

theorem translate_ne_none_of_valid_some (s m : String) (h : valid_column_type s = some m) :
    translate_type_from_sqlite_to_mysql s ≠ none := by
  unfold translate_type_from_sqlite_to_mysql
  rw [h]
  dsimp only
  split_ifs <;> simp

theorem translate_unclassified (s m : String) (h : valid_column_type s = some m)
    (h1 : pyUpper m ≠ "TEXT") (h2 : pyUpper m ≠ "CLOB")
    (h3 : pyUpper m ≠ "CHARACTER") (h4 : pyUpper m ≠ "NCHAR")
    (h5 : pyUpper m ≠ "NATIVE CHARACTER") (h6 : pyUpper m ≠ "VARYING CHARACTER")
    (h7 : pyUpper m ≠ "NVARCHAR") (h8 : pyUpper m ≠ "VARCHAR")
    (h9 : pyUpper m ≠ "DOUBLE PRECISION") (h10 : pyUpper m ≠ "UNSIGNED BIG INT")
    (h11 : pyUpper m ≠ "INT1") (h12 : pyUpper m ≠ "INT2") :
    translate_type_from_sqlite_to_mysql s = some (pyUpper s) := by
  unfold translate_type_from_sqlite_to_mysql
  rw [h]
  dsimp only
  rw [if_neg (by tauto), if_neg (by tauto), if_neg (by tauto), if_neg h9, if_neg h10,
    if_neg (by tauto)]

theorem column_ddl_eq (c : TableColumn) (t : String)
    (h : translate_type_from_sqlite_to_mysql c.type = some t) :
    column_ddl c = some (" `" ++ c.name ++ "` " ++ t ++ " " ++ notnull_marker c.notnull ++ " "
      ++ auto_increment_marker c.pk t ++ ", ") := by
  unfold column_ddl
  rw [h]

theorem columns_ddl_of_forall (cols : List TableColumn)
    (h : ∀ c ∈ cols, translate_type_from_sqlite_to_mysql c.type ≠ none) :
    ∃ b, columns_ddl cols = some b := by
  induction cols with
  | nil => exact ⟨"", rfl⟩
  | cons c cs ih =>
    obtain ⟨b, hb⟩ := ih (fun d hd => h d (List.mem_cons_of_mem c hd))
    have hcne := h c (by simp)
    cases ht : translate_type_from_sqlite_to_mysql c.type with
    | none => exact absurd ht hcne
    | some t =>
      refine ⟨(" `" ++ c.name ++ "` " ++ t ++ " " ++ notnull_marker c.notnull ++ " "
        ++ auto_increment_marker c.pk t ++ ", ") ++ b, ?_⟩
      simp [columns_ddl, column_ddl_eq c t ht, hb]

theorem columns_ddl_none_of_mem (cols : List TableColumn) (c : TableColumn) (hc : c ∈ cols)
    (h : translate_type_from_sqlite_to_mysql c.type = none) :
    columns_ddl cols = none := by
  induction cols with
  | nil => cases hc
  | cons a as ih =>
    rcases List.mem_cons.mp hc with rfl | hmem
    · have hcd : column_ddl c = none := by unfold column_ddl; rw [h]
      simp [columns_ddl, hcd]
    · have hrec := ih hmem
      cases hca : column_ddl a <;> simp [columns_ddl, hca, hrec]

theorem columns_ddl_split (l r : List TableColumn) (c : TableColumn) (f : String)
    (hl : ∃ bl, columns_ddl l = some bl) (hr : ∃ br, columns_ddl r = some br)
    (hc : column_ddl c = some f) :
    ∃ body bl br, columns_ddl (l ++ c :: r) = some body ∧ body.data = bl ++ f.data ++ br := by
  obtain ⟨brs, hbr⟩ := hr
  induction l with
  | nil =>
    refine ⟨f ++ brs, [], brs.data, ?_, ?_⟩
    · simp [columns_ddl, hc, hbr]
    · simp [String.data_append]
  | cons a as ih =>
    obtain ⟨bl, hbl⟩ := hl
    cases hfa : column_ddl a with
    | none => simp [columns_ddl, hfa] at hbl
    | some fa =>
      cases has : columns_ddl as with
      | none => simp [columns_ddl, hfa, has] at hbl
      | some bas =>
        obtain ⟨body, bl', br', hbody, hdata⟩ := ih ⟨bas, has⟩
        refine ⟨fa ++ body, fa.data ++ bl', br', ?_, ?_⟩
        · simp [columns_ddl, hfa, hbody]
        · simp [String.data_append, hdata, List.append_assoc]

theorem filter_pk_eq_nil (cols : List TableColumn) (h : ∀ d ∈ cols, d.pk = 0) :
    cols.filter (fun d => d.pk != 0) = [] := by
  induction cols with
  | nil => rfl
  | cons a as ih =>
    have ha : (a.pk != 0) = false := by simp [h a (by simp)]
    simp [List.filter_cons, ha, ih (fun d hd => h d (List.mem_cons_of_mem a hd))]

theorem primary_key_name_concat (l : List TableColumn) (a : TableColumn) :
    primary_key_name (l ++ [a]) = if a.pk ≠ 0 then a.name else primary_key_name l := by
  unfold primary_key_name
  rw [List.foldl_append]
  rfl

theorem primary_key_name_eq_last (cols : List TableColumn) :
    primary_key_name cols =
      ((cols.filter fun c => c.pk != 0).getLast?).elim "" (fun c => c.name) := by
  induction cols using List.reverseRecOn with
  | nil => rfl
  | append_singleton l a ih =>
    rw [primary_key_name_concat, List.filter_append]
    by_cases ha : a.pk ≠ 0
    · have hfa : List.filter (fun d => d.pk != 0) [a] = [a] := by
        simp [List.filter_cons]
        simpa using ha
      rw [if_pos ha, hfa, List.getLast?_append_cons]
      rfl
    · have hfa : List.filter (fun d => d.pk != 0) [a] = [] := by
        simp [List.filter_cons]
        simpa using ha
      rw [if_neg ha, hfa, List.append_nil, ih]

theorem create_table_sql_eq (tname : String) (cols : List TableColumn) (body : String)
    (hb : columns_ddl cols = some body) :
    create_table_sql tname cols = some (normalizeWs
      (pyRstripCommaSpace ("CREATE TABLE IF NOT EXISTS `" ++ tname ++ "` ( " ++ body)
        ++ primary_key_clause cols ++ " ) ENGINE = InnoDB CHARACTER SET utf8")) := by
  unfold create_table_sql
  rw [hb]

theorem normalizeWs_data (s : String) : (normalizeWs s).data = joinSpace (pySplit s.data) := rfl


theorem primaryKey_infix_core (u n zs : List Char) :
    ("PRIMARY KEY").data <:+:
      joinSpace (pySplit (u ++ ((", PRIMARY KEY (`").data ++ n ++ ("`)").data ++ zs))) := by
  have hd1 : (", PRIMARY KEY (`" : String).data
      = [','] ++ ' ' :: (("PRIMARY").data ++ ' ' :: (("KEY").data ++ ' ' :: ['(', '`'])) := by
    decide
  have hd2 : ("`)" : String).data = ['`', ')'] := by decide
  have h : u ++ ((", PRIMARY KEY (`").data ++ n ++ ("`)").data ++ zs)
      = (u ++ [',']) ++ ' ' :: (("PRIMARY").data ++ ' ' :: (("KEY").data ++ ' ' ::
          ('(' :: '`' :: (n ++ '`' :: ')' :: zs)))) := by
    rw [hd1, hd2]
    simp [List.append_assoc]
  rw [h]
  exact primaryKey_infixJoin _ _

theorem autoIncrement_infix_core (hdr bl f1 br zs : List Char) :
    ("AUTO_INCREMENT").data <:+:
      joinSpace (pySplit (rstripCommaSpace
        (hdr ++ bl ++ (f1 ++ ' ' :: (("AUTO_INCREMENT").data ++ ',' :: ' ' :: br))) ++ zs)) := by
  have hsplitAI : ("AUTO_INCREMENT" : String).data = ("AUTO_INCREMEN").data ++ ['T'] := by decide
  have h1 : hdr ++ bl ++ (f1 ++ ' ' :: (("AUTO_INCREMENT").data ++ ',' :: ' ' :: br))
      = ((hdr ++ bl ++ f1 ++ ' ' :: ("AUTO_INCREMEN").data) ++ ['T']) ++ (',' :: ' ' :: br) := by
    rw [hsplitAI]
    simp [List.append_assoc]
  rw [h1, rstripCommaSpace_append _ _ 'T' (by decide)]
  have h2 : (((hdr ++ bl ++ f1 ++ ' ' :: ("AUTO_INCREMEN").data) ++ ['T'])
        ++ rstripCommaSpace (',' :: ' ' :: br)) ++ zs
      = (hdr ++ bl ++ f1) ++ ' ' :: (("AUTO_INCREMENT").data
          ++ (rstripCommaSpace (',' :: ' ' :: br) ++ zs)) := by
    rw [hsplitAI]
    simp [List.append_assoc]
  rw [h2]
  exact token_head_infixJoin _ _ _ (by decide) (by decide)

theorem primaryKey_infix_create (tname : String) (cols : List TableColumn) (ddl : String)
    (hbody : ∃ body, columns_ddl cols = some body)
    (hpk : primary_key_name cols ≠ "")
    (hddl : create_table_sql tname cols = some ddl) :
    ("PRIMARY KEY").data <:+: ddl.data := by
  obtain ⟨body, hb⟩ := hbody
  rw [create_table_sql_eq tname cols body hb] at hddl
  obtain rfl := Option.some.inj hddl
  rw [normalizeWs_data]
  have hclause : primary_key_clause cols
      = ", PRIMARY KEY (`" ++ primary_key_name cols ++ "`)" := by
    rw [primary_key_clause, if_pos hpk]
  have hS : (pyRstripCommaSpace ("CREATE TABLE IF NOT EXISTS `" ++ tname ++ "` ( " ++ body)
        ++ primary_key_clause cols ++ " ) ENGINE = InnoDB CHARACTER SET utf8").data
      = rstripCommaSpace (("CREATE TABLE IF NOT EXISTS `" ++ tname ++ "` ( " ++ body).data)
        ++ ((", PRIMARY KEY (`").data ++ (primary_key_name cols).data
          ++ ("`)").data ++ (" ) ENGINE = InnoDB CHARACTER SET utf8").data) := by
    rw [hclause]
    simp [String.data_append, pyRstripCommaSpace, List.append_assoc]
  rw [hS]
  exact primaryKey_infix_core _ _ _

theorem autoIncrement_infix_create (tname : String) (l r : List TableColumn) (c : TableColumn)
    (t ddl : String)
    (hl : ∃ bl, columns_ddl l = some bl) (hr : ∃ br, columns_ddl r = some br)
    (ht : translate_type_from_sqlite_to_mysql c.type = some t)
    (hai : auto_increment_marker c.pk t = "AUTO_INCREMENT")
    (hddl : create_table_sql tname (l ++ c :: r) = some ddl) :
    ("AUTO_INCREMENT").data <:+: ddl.data := by
  obtain ⟨body, bl, br, hbody, hdata⟩ := columns_ddl_split l r c _ hl hr (column_ddl_eq c t ht)
  rw [hai] at hdata
  rw [create_table_sql_eq tname _ body hbody] at hddl
  obtain rfl := Option.some.inj hddl
  rw [normalizeWs_data]
  have hS : (pyRstripCommaSpace ("CREATE TABLE IF NOT EXISTS `" ++ tname ++ "` ( " ++ body)
        ++ primary_key_clause (l ++ c :: r) ++ " ) ENGINE = InnoDB CHARACTER SET utf8").data
      = rstripCommaSpace
          ((("CREATE TABLE IF NOT EXISTS `").data ++ tname.data ++ ("` ( ").data)
            ++ bl
            ++ ((" `" ++ c.name ++ "` " ++ t ++ " " ++ notnull_marker c.notnull).data
              ++ ' ' :: (("AUTO_INCREMENT").data ++ ',' :: ' ' :: br)))
        ++ ((primary_key_clause (l ++ c :: r)).data
          ++ (" ) ENGINE = InnoDB CHARACTER SET utf8").data) := by
    simp [String.data_append, pyRstripCommaSpace, hdata, List.append_assoc]
  rw [hS]
  exact autoIncrement_infix_core _ _ _ _ _

/-! ## Lemmas about the transfer pipeline -/

theorem chunked_transfer_loop_num_batches {α : Type} (chunk it : Nat) (rows : List α) :
    (chunked_transfer_loop chunk it rows).1.length = it := by
  induction it generalizing rows with
  | zero => rfl
  | succ n ih => simp [chunked_transfer_loop, ih]

theorem chunked_transfer_loop_num_commits {α : Type} (chunk it : Nat) (rows : List α) :
    (chunked_transfer_loop chunk it rows).2 = it := by
  induction it generalizing rows with
  | zero => rfl
  | succ n ih => simp [chunked_transfer_loop, ih]

theorem chunked_transfer_loop_join {α : Type} (chunk it : Nat) (rows : List α) :
    (chunked_transfer_loop chunk it rows).1.flatten = rows.take (chunk * it) := by
  induction it generalizing rows with
  | zero => simp [chunked_transfer_loop]
  | succ n ih =>
    have hmul : chunk * (n + 1) = chunk + chunk * n := by ring
    rw [hmul, List.take_add]
    simp [chunked_transfer_loop, ih]

theorem le_mul_pyCeilDiv (n c : Nat) (hc : 0 < c) : n ≤ c * pyCeilDiv n c := by
  cases n with
  | zero => simp
  | succ m =>
    unfold pyCeilDiv
    have hdiv : (m + 1 + c - 1) / c = m / c + 1 := by
      have hmc : m + 1 + c - 1 = m + c := by omega
      rw [hmc, Nat.add_div_right m hc]
    rw [hdiv, Nat.mul_add, Nat.mul_one]
    have h1 := Nat.div_add_mod m c
    have h2 := Nat.mod_lt m hc
    calc m + 1 = c * (m / c) + m % c + 1 := by rw [h1]
      _ = c * (m / c) + (m % c + 1) := by rw [Nat.add_assoc]
      _ ≤ c * (m / c) + c := Nat.add_le_add_left h2 _

theorem transfer_table_data_chunked {α : Type} (C : Nat) (hC : 0 < C) (rows : List α) :
    transfer_table_data (some (C : Int)) rows rows.length
      = chunked_transfer_loop C (pyCeilDiv rows.length C) rows := by
  unfold transfer_table_data
  dsimp only
  rw [if_pos (by exact_mod_cast hC), Int.toNat_ofNat]

theorem process_table_some {α : Type} (chunk : Option Int) (t : SQLiteTable α)
    (h : ∀ c ∈ t.columns, translate_type_from_sqlite_to_mysql c.type ≠ none) :
    ∃ r, process_table chunk t = some r := by
  obtain ⟨b, hb⟩ := columns_ddl_of_forall t.columns h
  unfold process_table
  rw [create_table_sql_eq t.name t.columns b hb]
  dsimp only
  by_cases hl : 0 < t.rows.length
  · rw [if_pos hl]; exact ⟨_, rfl⟩
  · rw [if_neg hl]; exact ⟨_, rfl⟩

theorem create_table_sql_none_of_invalid (tname : String) (cols : List TableColumn)
    (c : TableColumn) (hc : c ∈ cols) (h : valid_column_type c.type = none) :
    create_table_sql tname cols = none := by
  have hcd := columns_ddl_none_of_mem cols c hc (translate_of_valid_none _ h)
  unfold create_table_sql
  rw [hcd]

theorem transfer_tables_abort {α : Type} (chunk : Option Int)
    (pre post : List (SQLiteTable α)) (t : SQLiteTable α)
    (hpre : ∀ p ∈ pre, ∀ c ∈ p.columns, translate_type_from_sqlite_to_mysql c.type ≠ none)
    (hbad : create_table_sql t.name t.columns = none) :
    transfer_tables chunk (pre ++ t :: post)
      = (pre.filterMap (fun p => process_table chunk p), true) := by
  induction pre with
  | nil =>
    have hpt : process_table chunk t = none := by
      unfold process_table
      rw [hbad]
    simp [transfer_tables, hpt]
  | cons p ps ih =>
    obtain ⟨r, hr⟩ := process_table_some chunk p (hpre p (by simp))
    have ihh := ih (fun q hq => hpre q (List.mem_cons_of_mem p hq))
    simp [transfer_tables, hr, ihh, List.filterMap_cons]

theorem filterMap_process_length {α : Type} (chunk : Option Int) (pre : List (SQLiteTable α))
    (hpre : ∀ p ∈ pre, ∀ c ∈ p.columns, translate_type_from_sqlite_to_mysql c.type ≠ none) :
    (pre.filterMap (fun p => process_table chunk p)).length = pre.length := by
  induction pre with
  | nil => rfl
  | cons p ps ih =>
    obtain ⟨r, hr⟩ := process_table_some chunk p (hpre p (by simp))
    simp [List.filterMap_cons, hr, ih (fun q hq => hpre q (List.mem_cons_of_mem p hq))]

/-! ## Claim theorems -/

/-- C2: the type translator returns exactly the specified values on the nine
specified inputs; on the empty string it fails (returns `none`, modelling the
`ValueError` behind `InvalidTypeDeclaration`). -/
theorem translate_concrete_values :
    translate_type_from_sqlite_to_mysql "TEXT" = some "TEXT" ∧
    translate_type_from_sqlite_to_mysql "VARCHAR(100)" = some "VARCHAR(100)" ∧
    translate_type_from_sqlite_to_mysql "VARCHAR" = some "VARCHAR(255)" ∧
    translate_type_from_sqlite_to_mysql "NVARCHAR(50)" = some "VARCHAR(50)" ∧
    translate_type_from_sqlite_to_mysql "UNSIGNED BIG INT" = some "BIGINT UNSIGNED" ∧
    translate_type_from_sqlite_to_mysql "UNSIGNED BIG INT(20)" = some "BIGINT(20) UNSIGNED" ∧
    translate_type_from_sqlite_to_mysql "INT1" = some "INT" ∧
    translate_type_from_sqlite_to_mysql "DOUBLE PRECISION" = some "DOUBLE" ∧
    translate_type_from_sqlite_to_mysql "" = none := by
  decide

theorem valid_none_iff (s : String) :
    valid_column_type s = none ↔
      ((pyStrip s).data = [] ∨ ∃ rest, (pyStrip s).data = '(' :: rest) := by
  unfold valid_column_type COLUMN_PATTERN_match
  cases hd : (pyStrip s).data with
  | nil => simp [hd]
  | cons c cs =>
    by_cases hc : c = '('
    · subst hc
      simp [hd, List.takeWhile_cons]
    · simp [hd, List.takeWhile_cons, hc]

/-- C4: the translator fails (raises `InvalidTypeDeclaration`, modelled as
`none`) iff the whitespace-stripped input is empty or begins with `(`; on
every other input it returns a string without raising. -/
theorem translate_invalid_iff (s : String) :
    translate_type_from_sqlite_to_mysql s = none ↔
      ((pyStrip s).data = [] ∨ ∃ rest, (pyStrip s).data = '(' :: rest) := by
  rw [← valid_none_iff]
  constructor
  · intro h
    cases hv : valid_column_type s with
    | none => rfl
    | some m => exact absurd h (translate_ne_none_of_valid_some s m hv)
  · exact translate_of_valid_none s

theorem translate_invalid_iff_witness :
    translate_type_from_sqlite_to_mysql "" = none :=
  (translate_invalid_iff "").mpr (Or.inl (by decide))

/-- C6: in a table in which no column has a truthy `pk` flag, the DDL builder
produces no PRIMARY KEY clause (the `primary_key` variable stays empty, so
the clause is never appended) and every column's AUTO_INCREMENT marker is
empty, whatever its type translates to. -/
theorem no_pk_no_clauses (columns : List TableColumn) (h : ∀ c ∈ columns, c.pk = 0) :
    primary_key_name columns = "" ∧
    primary_key_clause columns = "" ∧
    ∀ c ∈ columns, ∀ t : String, auto_increment_marker c.pk t = "" := by
  have hn : primary_key_name columns = "" := by
    rw [primary_key_name_eq_last, filter_pk_eq_nil columns h]
    rfl
  refine ⟨hn, ?_, ?_⟩
  · rw [primary_key_clause, if_neg (by simp [hn])]
  · intro c hc t
    unfold auto_increment_marker
    rw [if_neg]
    rintro ⟨h1, _⟩
    exact h1 (h c hc)

theorem no_pk_no_clauses_witness :
    primary_key_clause [TableColumn.mk "a" "TEXT" 0 0] = "" :=
  (no_pk_no_clauses [TableColumn.mk "a" "TEXT" 0 0] (by decide)).2.1

/-- C8: a source table with zero rows still has its destination table
created (the DDL step runs and succeeds), and the data-transfer step is
skipped entirely (modelled by the `none` second component). -/
theorem empty_table_ddl_no_transfer {α : Type} (chunk : Option Int)
    (tname : String) (columns : List TableColumn)
    (h : ∀ c ∈ columns, translate_type_from_sqlite_to_mysql c.type ≠ none) :
    ∃ ddl, create_table_sql tname columns = some ddl ∧
      process_table chunk ⟨tname, columns, ([] : List α)⟩ = some (ddl, none) := by
  obtain ⟨b, hb⟩ := columns_ddl_of_forall columns h
  refine ⟨_, create_table_sql_eq tname columns b hb, ?_⟩
  unfold process_table
  dsimp only
  rw [create_table_sql_eq tname columns b hb]
  dsimp only
  rw [if_neg (by simp)]

theorem empty_table_ddl_no_transfer_witness :
    ∃ ddl, create_table_sql "t" [TableColumn.mk "x" "TEXT" 0 0] = some ddl ∧
      process_table none ⟨"t", [TableColumn.mk "x" "TEXT" 0 0], ([] : List Nat)⟩
        = some (ddl, none) :=
  @empty_table_ddl_no_transfer Nat none "t" [TableColumn.mk "x" "TEXT" 0 0] (by decide)

/-- C3: chunked transfer with chunk size C > 0 of N > 0 rows issues exactly
ceil(N/C) insert batches, commits once after each batch (the commit count
equals the batch count), and the concatenation of the batches, in order,
is exactly the full source row list. -/
theorem chunked_transfer_correct {α : Type} (rows : List α) (C : Nat)
    (hC : 0 < C) (hN : 0 < rows.length) :
    ((transfer_table_data (some (C : Int)) rows rows.length).1.length
        = pyCeilDiv rows.length C) ∧
    ((transfer_table_data (some (C : Int)) rows rows.length).2
        = (transfer_table_data (some (C : Int)) rows rows.length).1.length) ∧
    (transfer_table_data (some (C : Int)) rows rows.length).1.flatten = rows := by
  rw [transfer_table_data_chunked C hC rows]
  refine ⟨chunked_transfer_loop_num_batches _ _ _, ?_, ?_⟩
  · rw [chunked_transfer_loop_num_commits, chunked_transfer_loop_num_batches]
  · rw [chunked_transfer_loop_join]
    exact List.take_of_length_le (le_mul_pyCeilDiv rows.length C hC)

theorem chunked_transfer_correct_witness :
    ((transfer_table_data (some ((2 : Nat) : Int)) [1, 2, 3, 4, 5]
        ([1, 2, 3, 4, 5] : List Nat).length).1.length = pyCeilDiv 5 2) ∧
    (transfer_table_data (some ((2 : Nat) : Int)) [1, 2, 3, 4, 5]
        ([1, 2, 3, 4, 5] : List Nat).length).1.flatten = [1, 2, 3, 4, 5] := by
  have h := @chunked_transfer_correct Nat [1, 2, 3, 4, 5] 2 (by decide) (by decide)
  exact ⟨h.1, h.2.2⟩

/-- C7: when a table contains a column whose declared type has no leading
type token, the migration aborts while building that table's DDL (its
`CREATE TABLE` is `none`, so no row of it is ever transferred), and every
table processed before it is fully processed, exactly as without the abort. -/
theorem unparseable_type_aborts {α : Type} (chunk : Option Int)
    (pre post : List (SQLiteTable α)) (t : SQLiteTable α) (c : TableColumn)
    (hpre : ∀ p ∈ pre, ∀ d ∈ p.columns, translate_type_from_sqlite_to_mysql d.type ≠ none)
    (hc : c ∈ t.columns) (hbad : valid_column_type c.type = none) :
    create_table_sql t.name t.columns = none ∧
    transfer_tables chunk (pre ++ t :: post)
      = (pre.filterMap (fun p => process_table chunk p), true) ∧
    (pre.filterMap (fun p => process_table chunk p)).length = pre.length := by
  have hnone := create_table_sql_none_of_invalid t.name t.columns c hc hbad
  exact ⟨hnone, transfer_tables_abort chunk pre post t hpre hnone,
    filterMap_process_length chunk pre hpre⟩

theorem unparseable_type_aborts_witness :
    create_table_sql "b" [TableColumn.mk "y" "(bad" 0 0] = none ∧
    transfer_tables (some 2)
        ([SQLiteTable.mk "a" [TableColumn.mk "x" "INT" 0 0] [1, 2]]
          ++ SQLiteTable.mk "b" [TableColumn.mk "y" "(bad" 0 0] [9]
            :: [SQLiteTable.mk "c" [TableColumn.mk "z" "TEXT" 0 0] [7]])
      = ([SQLiteTable.mk "a" [TableColumn.mk "x" "INT" 0 0] [1, 2]].filterMap
          (fun p => process_table (some 2) p), true) := by
  have h := @unparseable_type_aborts Nat (some 2)
    [SQLiteTable.mk "a" [TableColumn.mk "x" "INT" 0 0] [1, 2]]
    [SQLiteTable.mk "c" [TableColumn.mk "z" "TEXT" 0 0] [7]]
    (SQLiteTable.mk "b" [TableColumn.mk "y" "(bad" 0 0] [9])
    (TableColumn.mk "y" "(bad" 0 0)
    (by decide) (by decide) (by decide)
  exact ⟨h.1, h.2.1⟩

theorem takeWhile_append_of_forall {α : Type} (p : α → Bool) (a b : List α) (c : α)
    (ha : ∀ x ∈ a, p x = true) (hc : p c = false) :
    (a ++ c :: b).takeWhile p = a ∧ (a ++ c :: b).dropWhile p = c :: b := by
  induction a with
  | nil => simp [List.takeWhile_cons, List.dropWhile_cons, hc]
  | cons x xs ih =>
    have hx := ha x (by simp)
    have ihh := ih (fun y hy => ha y (List.mem_cons_of_mem x hy))
    simp [List.takeWhile_cons, List.dropWhile_cons, hx, ihh]

theorem length_suffix_rev_match_some (l : List Char) (suf : String)
    (h : length_suffix_rev_match l = some suf) :
    ∃ q ds : List Char, ds ≠ [] ∧ (∀ c ∈ ds, c.isDigit = true) ∧
      l = ')' :: (ds.reverse ++ '(' :: q) ∧ suf.data = '(' :: (ds ++ [')']) := by
  unfold length_suffix_rev_match at h
  split at h
  · exact absurd h (by simp)
  · rename_i c0 rest
    split at h
    · rename_i hc0
      split at h
      · exact absurd h (by simp)
      · rename_i c2 tail heq2
        split at h
        · rename_i hc2
          split at h
          · exact absurd h (by simp)
          · rename_i hde
            have hsuf := Option.some.inj h
            refine ⟨tail, (rest.takeWhile Char.isDigit).reverse, ?_, ?_, ?_, ?_⟩
            · intro hnil
              apply hde
              rw [List.reverse_eq_nil_iff] at hnil
              simp [hnil]
            · intro d hd
              exact List.mem_takeWhile_imp (List.mem_reverse.mp hd)
            · rw [hc0, List.reverse_reverse]
              congr 1
              conv_lhs => rw [← List.takeWhile_append_dropWhile Char.isDigit rest]
              rw [heq2, hc2]
            · rw [← hsuf]
        · exact absurd h (by simp)
    · exact absurd h (by simp)

theorem length_suffix_rev_match_eq (p ds : List Char) (hne : ds ≠ [])
    (hdig : ∀ c ∈ ds, c.isDigit = true) :
    length_suffix_rev_match (')' :: (ds.reverse ++ '(' :: p.reverse))
      = some ⟨'(' :: (ds ++ [')'])⟩ := by
  have htk := takeWhile_append_of_forall Char.isDigit ds.reverse p.reverse '('
    (fun x hx => hdig x (List.mem_reverse.mp hx)) (by decide)
  unfold length_suffix_rev_match
  dsimp only
  rw [if_pos rfl, htk.2]
  dsimp only
  rw [if_pos rfl, htk.1, if_neg (by simpa using hne), List.reverse_reverse]

/-- C5 (amended): `_column_type_length`'s regex search `\(\d+\)$` recognises
a suffix exactly when the input ends in a parenthesised non-empty digit run
optionally followed by one trailing newline (Python's `$` also matches just
before a final newline), and the recognised suffix is that `(digits)` run.
Other parenthesised content is never recognised, so `DECIMAL(10,2)`
(unclassified) passes through upper-cased and unchanged, while classified
types lose the unrecognised suffix (`CHARACTER(10,2)` → `CHAR`) or get the
default (`VARCHAR(10,2)` → `VARCHAR(255)`). -/
theorem length_suffix_spec :
    (∀ s suf : String, length_suffix_match s = some suf →
      ∃ p ds tail : List Char, (tail = [] ∨ tail = ['\n']) ∧ ds ≠ [] ∧
        (∀ c ∈ ds, c.isDigit = true) ∧
        s.data = p ++ '(' :: (ds ++ ')' :: tail) ∧ suf.data = '(' :: (ds ++ [')'])) ∧
    (∀ (s : String) (p ds tail : List Char), (tail = [] ∨ tail = ['\n']) → ds ≠ [] →
      (∀ c ∈ ds, c.isDigit = true) → s.data = p ++ '(' :: (ds ++ ')' :: tail) →
      length_suffix_match s = some ⟨'(' :: (ds ++ [')'])⟩) ∧
    translate_type_from_sqlite_to_mysql "DECIMAL(10,2)" = some "DECIMAL(10,2)" ∧
    translate_type_from_sqlite_to_mysql "CHARACTER(10,2)" = some "CHAR" ∧
    translate_type_from_sqlite_to_mysql "VARCHAR(10,2)" = some "VARCHAR(255)" := by
  refine ⟨?_, ?_, by decide, by decide, by decide⟩
  · intro s suf h
    unfold length_suffix_match at h
    split at h
    · simp [length_suffix_rev_match] at h
    · rename_i c0 rest heq
      by_cases hc : c0 = '\n'
      · rw [if_pos hc] at h
        obtain ⟨q, ds, hne, hdig, hrest, hsufd⟩ := length_suffix_rev_match_some rest suf h
        refine ⟨q.reverse, ds, ['\n'], Or.inr rfl, hne, hdig, ?_, hsufd⟩
        have hsd : s.data = (c0 :: rest).reverse := by
          rw [← heq, List.reverse_reverse]
        rw [hsd, hc, hrest]
        simp [List.reverse_append, List.append_assoc]
      · rw [if_neg hc] at h
        obtain ⟨q, ds, hne, hdig, hl, hsufd⟩ := length_suffix_rev_match_some (c0 :: rest) suf h
        refine ⟨q.reverse, ds, [], Or.inl rfl, hne, hdig, ?_, hsufd⟩
        have hsd : s.data = (c0 :: rest).reverse := by
          rw [← heq, List.reverse_reverse]
        rw [hsd, hl]
        simp [List.reverse_append, List.append_assoc]
  · intro s p ds tail htail hne hdig hs
    have hcore := length_suffix_rev_match_eq p ds hne hdig
    rcases htail with rfl | rfl
    · have hrev : s.data.reverse = ')' :: (ds.reverse ++ '(' :: p.reverse) := by
        rw [hs]
        simp [List.reverse_append]
      unfold length_suffix_match
      rw [hrev]
      dsimp only
      rw [if_neg (by decide)]
      exact hcore
    · have hrev : s.data.reverse = '\n' :: ')' :: (ds.reverse ++ '(' :: p.reverse) := by
        rw [hs]
        simp [List.reverse_append]
      unfold length_suffix_match
      rw [hrev]
      dsimp only
      rw [if_pos rfl]
      exact hcore

theorem length_suffix_spec_witness :
    length_suffix_match "VARCHAR(100)" = some ⟨'(' :: (['1', '0', '0'] ++ [')'])⟩ :=
  length_suffix_spec.2.1 "VARCHAR(100)" ("VARCHAR").data ['1', '0', '0'] []
    (Or.inl rfl) (by decide) (by decide) (by decide)

/-- C5 (counterexample to the claim as stated): the input `"VARCHAR(100)\n"`
does not end with `(<digits>)` — its last character is a newline — yet the
length-extraction logic recognises and copies the suffix `(100)`, because
Python's `$` also matches just before a trailing newline; the translator
therefore returns `VARCHAR(100)` instead of the default `VARCHAR(255)` the
claim would require. -/
theorem length_suffix_trailing_newline_refutes :
    ("VARCHAR(100)\n").data.getLast? = some '\n' ∧
    length_suffix_match "VARCHAR(100)\n" = some "(100)" ∧
    translate_type_from_sqlite_to_mysql "VARCHAR(100)\n" = some "VARCHAR(100)" ∧
    translate_type_from_sqlite_to_mysql "VARCHAR(100)\n" ≠ some "VARCHAR(255)" := by
  decide


theorem toUpper_ws (c : Char) (h : c.isWhitespace = true) :
    (Char.toUpper c).isWhitespace = true := by
  have hc : ((c = ' ' ∨ c = '\t') ∨ c = '\r') ∨ c = '\n' := by
    simpa [Char.isWhitespace] using h
  rcases hc with ((rfl | rfl) | rfl) | rfl <;> decide

theorem getLast_pyUpper (m : String) :
    (pyUpper m).data.getLast? = m.data.getLast?.map Char.toUpper := by
  show (m.data.map Char.toUpper).getLast? = _
  rw [← List.head?_reverse, ← List.map_reverse, List.head?_map, List.head?_reverse]

theorem pyUpper_ne_of_last_ws (m K : String) (c : Char) (hlast : m.data.getLast? = some c)
    (hws : c.isWhitespace = true) (k : Char) (hK : K.data.getLast? = some k)
    (hkws : k.isWhitespace = false) : pyUpper m ≠ K := by
  intro he
  have h1 : (pyUpper m).data.getLast? = some (Char.toUpper c) := by
    rw [getLast_pyUpper, hlast]
    rfl
  rw [he, hK] at h1
  have h2 := toUpper_ws c hws
  have h3 := Option.some.inj h1
  rw [← h3] at h2
  rw [h2] at hkws
  cases hkws

/-- C9: when the leading-token match of `COLUMN_PATTERN` ends in whitespace
(as happens when whitespace separates the type name from its parenthesised
length), classification fails against every branch constant and the
translator returns the upper-cased full string unchanged; in particular
`VARCHAR (100)` stays `VARCHAR (100)` rather than becoming `VARCHAR(100)`. -/
theorem ws_separated_suffix_not_classified (s m : String) (c : Char)
    (hm : valid_column_type s = some m)
    (hlast : m.data.getLast? = some c) (hws : c.isWhitespace = true) :
    translate_type_from_sqlite_to_mysql s = some (pyUpper s) ∧
    translate_type_from_sqlite_to_mysql "VARCHAR (100)" = some "VARCHAR (100)" := by
  refine ⟨?_, by decide⟩
  apply translate_unclassified s m hm
  · exact pyUpper_ne_of_last_ws m "TEXT" c hlast hws 'T' (by decide) (by decide)
  · exact pyUpper_ne_of_last_ws m "CLOB" c hlast hws 'B' (by decide) (by decide)
  · exact pyUpper_ne_of_last_ws m "CHARACTER" c hlast hws 'R' (by decide) (by decide)
  · exact pyUpper_ne_of_last_ws m "NCHAR" c hlast hws 'R' (by decide) (by decide)
  · exact pyUpper_ne_of_last_ws m "NATIVE CHARACTER" c hlast hws 'R' (by decide) (by decide)
  · exact pyUpper_ne_of_last_ws m "VARYING CHARACTER" c hlast hws 'R' (by decide) (by decide)
  · exact pyUpper_ne_of_last_ws m "NVARCHAR" c hlast hws 'R' (by decide) (by decide)
  · exact pyUpper_ne_of_last_ws m "VARCHAR" c hlast hws 'R' (by decide) (by decide)
  · exact pyUpper_ne_of_last_ws m "DOUBLE PRECISION" c hlast hws 'N' (by decide) (by decide)
  · exact pyUpper_ne_of_last_ws m "UNSIGNED BIG INT" c hlast hws 'T' (by decide) (by decide)
  · exact pyUpper_ne_of_last_ws m "INT1" c hlast hws '1' (by decide) (by decide)
  · exact pyUpper_ne_of_last_ws m "INT2" c hlast hws '2' (by decide) (by decide)

theorem ws_separated_suffix_not_classified_witness :
    translate_type_from_sqlite_to_mysql "VARCHAR (100)" = some "VARCHAR (100)" :=
  (ws_separated_suffix_not_classified "VARCHAR (100)" "VARCHAR " ' '
    (by decide) (by decide) (by decide)).2

/-- C1: the AUTO_INCREMENT marker is emitted for a column iff its `pk` flag
is truthy and its translated type is `INT` or `BIGINT`; a table whose single
pk column translates to `INT`/`BIGINT` gets a DDL containing both
`PRIMARY KEY` and `AUTO_INCREMENT`, and a table whose single pk column
translates to anything else (e.g. `TEXT`) gets `PRIMARY KEY` while every
column's emitted AUTO_INCREMENT marker is empty. -/
theorem single_pk_auto_increment (tname : String) (l r : List TableColumn)
    (c : TableColumn) (t : String)
    (hl : ∀ d ∈ l, d.pk = 0) (hr : ∀ d ∈ r, d.pk = 0) (hpk : c.pk ≠ 0)
    (hname : c.name ≠ "")
    (htl : ∀ d ∈ l, translate_type_from_sqlite_to_mysql d.type ≠ none)
    (htr : ∀ d ∈ r, translate_type_from_sqlite_to_mysql d.type ≠ none)
    (ht : translate_type_from_sqlite_to_mysql c.type = some t) :
    (∀ (pk : Nat) (ty : String),
      auto_increment_marker pk ty = "AUTO_INCREMENT"
        ↔ (pk ≠ 0 ∧ (ty = "INT" ∨ ty = "BIGINT"))) ∧
    ((t = "INT" ∨ t = "BIGINT") →
      ∃ ddl, create_table_sql tname (l ++ c :: r) = some ddl ∧
        ("PRIMARY KEY").data <:+: ddl.data ∧ ("AUTO_INCREMENT").data <:+: ddl.data) ∧
    (¬(t = "INT" ∨ t = "BIGINT") →
      (∃ ddl, create_table_sql tname (l ++ c :: r) = some ddl ∧
        ("PRIMARY KEY").data <:+: ddl.data) ∧
      ∀ d ∈ l ++ c :: r, ∀ ty, translate_type_from_sqlite_to_mysql d.type = some ty →
        auto_increment_marker d.pk ty = "") := by
  have hbl : ∃ bl, columns_ddl l = some bl := columns_ddl_of_forall l htl
  have hbr : ∃ br, columns_ddl r = some br := columns_ddl_of_forall r htr
  have hbody : ∃ body, columns_ddl (l ++ c :: r) = some body := by
    apply columns_ddl_of_forall
    intro d hd
    rcases List.mem_append.mp hd with h | h
    · exact htl d h
    · rcases List.mem_cons.mp h with rfl | h
      · rw [ht]; simp
      · exact htr d h
  have hcpk : (c.pk != 0) = true := by simpa using hpk
  have hpkname : primary_key_name (l ++ c :: r) = c.name := by
    rw [primary_key_name_eq_last]
    have hfilter : (l ++ c :: r).filter (fun d => d.pk != 0) = [c] := by
      rw [List.filter_append, filter_pk_eq_nil l hl, List.filter_cons, filter_pk_eq_nil r hr]
      simp [hcpk]
    rw [hfilter]
    rfl
  have hpkne : primary_key_name (l ++ c :: r) ≠ "" := by
    rw [hpkname]; exact hname
  refine ⟨?_, ?_, ?_⟩
  · intro pk ty
    unfold auto_increment_marker
    by_cases h : pk ≠ 0 ∧ (ty = "INT" ∨ ty = "BIGINT")
    · rw [if_pos h]
      exact ⟨fun _ => h, fun _ => rfl⟩
    · rw [if_neg h]
      exact ⟨fun he => absurd he (by decide), fun hh => absurd hh h⟩
  · intro hint
    obtain ⟨body, hb⟩ := hbody
    have hai : auto_increment_marker c.pk t = "AUTO_INCREMENT" := by
      unfold auto_increment_marker
      rw [if_pos ⟨hpk, hint⟩]
    exact ⟨_, create_table_sql_eq tname _ body hb,
      primaryKey_infix_create tname _ _ ⟨body, hb⟩ hpkne (create_table_sql_eq tname _ body hb),
      autoIncrement_infix_create tname l r c t _ hbl hbr ht hai
        (create_table_sql_eq tname _ body hb)⟩
  · intro hnot
    obtain ⟨body, hb⟩ := hbody
    refine ⟨⟨_, create_table_sql_eq tname _ body hb,
      primaryKey_infix_create tname _ _ ⟨body, hb⟩ hpkne (create_table_sql_eq tname _ body hb)⟩,
      ?_⟩
    intro d hd ty hty
    unfold auto_increment_marker
    rcases List.mem_append.mp hd with h | h
    · rw [if_neg]
      rintro ⟨h1, _⟩
      exact h1 (hl d h)
    · rcases List.mem_cons.mp h with rfl | h
      · have hte : t = ty := Option.some.inj (ht.symm.trans hty)
        rw [if_neg]
        rintro ⟨_, h2⟩
        exact hnot (hte ▸ h2)
      · rw [if_neg]
        rintro ⟨h1, _⟩
        exact h1 (hr d h)

theorem single_pk_auto_increment_witness :
    ∃ ddl, create_table_sql "people"
        ([] ++ TableColumn.mk "id" "INT" 1 1 :: [TableColumn.mk "v" "TEXT" 0 0]) = some ddl ∧
      ("PRIMARY KEY").data <:+: ddl.data ∧ ("AUTO_INCREMENT").data <:+: ddl.data :=
  (single_pk_auto_increment "people" [] [TableColumn.mk "v" "TEXT" 0 0]
    (TableColumn.mk "id" "INT" 1 1) "INT" (by decide) (by decide) (by decide) (by decide)
    (by decide) (by decide) (by decide)).2.1 (Or.inl rfl)

/-- C10: with several pk-flagged columns, the `primary_key` variable ends as
the name of the last pk-flagged column, so the builder emits exactly one
PRIMARY KEY clause and it names only that column (the earlier pk columns are
dropped; no composite key), and the final DDL contains `PRIMARY KEY`. -/
theorem multiple_pk_last_wins (tname : String) (columns : List TableColumn) (c : TableColumn)
    (hmany : 1 < (columns.filter fun d => d.pk != 0).length)
    (hlast : (columns.filter fun d => d.pk != 0).getLast? = some c)
    (hname : c.name ≠ "")
    (htr : ∀ d ∈ columns, translate_type_from_sqlite_to_mysql d.type ≠ none) :
    primary_key_name columns = c.name ∧
    primary_key_clause columns = ", PRIMARY KEY (`" ++ c.name ++ "`)" ∧
    ∃ ddl, create_table_sql tname columns = some ddl ∧ ("PRIMARY KEY").data <:+: ddl.data := by
  have hn : primary_key_name columns = c.name := by
    rw [primary_key_name_eq_last, hlast]
    rfl
  have hnne : primary_key_name columns ≠ "" := by
    rw [hn]; exact hname
  refine ⟨hn, ?_, ?_⟩
  · rw [primary_key_clause, if_pos hnne, hn]
  · obtain ⟨body, hb⟩ := columns_ddl_of_forall columns htr
    exact ⟨_, create_table_sql_eq tname columns body hb,
      primaryKey_infix_create tname columns _ ⟨body, hb⟩ hnne
        (create_table_sql_eq tname columns body hb)⟩

theorem multiple_pk_last_wins_witness :
    primary_key_clause [TableColumn.mk "a" "INT" 0 1, TableColumn.mk "b" "INT" 0 2]
      = ", PRIMARY KEY (`b`)" :=
  (multiple_pk_last_wins "t" [TableColumn.mk "a" "INT" 0 1, TableColumn.mk "b" "INT" 0 2]
    (TableColumn.mk "b" "INT" 0 2) (by decide) (by decide) (by decide) (by decide)).2.1
